import Mathlib

set_option maxRecDepth 100000

/-!
Verification of the pure-Python imagecodecs transforms.

Shallow embedding of the algorithmic codecs in
`src/imagecodecs/imagecodecs.py` (version 2018.10.22): the Delta and XOR
predictors, the bit-order reversal, the floating-point predictor's input
validation, the PackBits run-length decoder, the variable-bit-width LZW
decoder, and the PackInts bit unpacker.

Conventions of the embedding:
* a Python byte string is a `List Nat` whose entries are below 256
  (stated as a hypothesis where a theorem needs it), except for the Delta
  byte path, where mod-256 arithmetic makes `ZMod 256` the natural carrier;
* Python exceptions are modelled by `Except PyErr`; a numpy scalar
  `IndexError` (such as `data[0]` on an empty array) is `PyErr.indexError`;
* numpy arrays are modelled by `NDArray`: a shape, a dtype character, and
  the underlying contiguous buffer bytes (`view('uint8')` order);
  operations that the source applies only along a rank-1 axis are embedded
  for that case;
* loops whose termination is by input exhaustion are embedded with an
  explicit fuel argument that provably dominates the iteration count, so
  every definition is executable by `decide`/`rfl`.
-/

namespace Imagecodecs

/-- Python exception values raised by the codecs. -/
inductive PyErr where
  | indexError
  | typeError
  | zeroDivision
  | notImplemented (msg : String)
  | valueError (msg : String)
  | outOfFuel
deriving DecidableEq, Repr

instance {ε α : Type} [DecidableEq ε] [DecidableEq α] : DecidableEq (Except ε α) := by
  intro a b
  cases a <;> cases b
  case error.error e₁ e₂ =>
    exact if h : e₁ = e₂ then .isTrue (by rw [h]) else .isFalse (by intro k; injection k; contradiction)
  case error.ok e v => exact .isFalse (by intro k; injection k)
  case ok.error v e => exact .isFalse (by intro k; injection k)
  case ok.ok v₁ v₂ =>
    exact if h : v₁ = v₂ then .isTrue (by rw [h]) else .isFalse (by intro k; injection k; contradiction)

/-! Section: Delta predictor, byte-buffer path

`delta_encode` on a `bytes`/`bytearray` input reinterprets the buffer as
unsigned 8-bit integers, takes consecutive differences (mod-256
wraparound), and prepends the first byte: `numpy.insert(numpy.diff(data), 0,
data[0])`.  On an empty buffer `data[0]` raises `IndexError`.
`delta_decode` is `numpy.cumsum(data, dtype='u1')`, total on every input. -/

/-- Consecutive differences `x_i - x_{i-1}` (mod 256), seeded with the
previous element `p`; the byte-path `numpy.diff`. -/
def deltaDiff : ZMod 256 → List (ZMod 256) → List (ZMod 256)
  | _, [] => []
  | p, x :: xs => (x - p) :: deltaDiff x xs

/-- Byte-buffer path of `delta_encode`. -/
def delta_encodeB : List (ZMod 256) → Except PyErr (List (ZMod 256))
  | [] => .error .indexError
  | x :: xs => .ok (x :: deltaDiff x xs)

/-- Running sum with accumulator `acc`, the byte-path `numpy.cumsum` with
`dtype='u1'`. -/
def cumsumB : ZMod 256 → List (ZMod 256) → List (ZMod 256)
  | _, [] => []
  | acc, x :: xs => (acc + x) :: cumsumB (acc + x) xs

/-- Byte-buffer path of `delta_decode`. -/
def delta_decodeB (data : List (ZMod 256)) : List (ZMod 256) :=
  cumsumB 0 data

/-! Section: XOR predictor, byte-buffer path

`xor_encode` on bytes: `numpy.insert(numpy.bitwise_xor(data[1:], data[:-1]),
0, data[0])`; on an empty buffer `data[0]` raises `IndexError`.
`xor_decode` on bytes is the running-XOR loop `prev = data[0]; prev = c ^
prev`, which raises `IndexError` on the empty byte string; on any other
input type it raises `NotImplementedError`. -/

/-- Consecutive XORs `x_i ^^^ x_{i-1}`, seeded with the previous element
`p`; the byte-path `numpy.bitwise_xor(data[1:], data[:-1])`. -/
def xorDiff : Nat → List Nat → List Nat
  | _, [] => []
  | p, x :: xs => (x ^^^ p) :: xorDiff x xs

/-- Byte-buffer path of `xor_encode`. -/
def xor_encodeB : List Nat → Except PyErr (List Nat)
  | [] => .error .indexError
  | x :: xs => .ok (x :: xorDiff x xs)

/-- The running-XOR accumulation of `xor_decode`'s `for` loop. -/
def xorScan : Nat → List Nat → List Nat
  | _, [] => []
  | prev, c :: cs => (c ^^^ prev) :: xorScan (c ^^^ prev) cs

/-- Byte-buffer path of `xor_decode`. -/
def xor_decodeB : List Nat → Except PyErr (List Nat)
  | [] => .error .indexError
  | x :: xs => .ok (x :: xorScan x xs)

/-! Section: Data model: byte strings versus numpy arrays

`NDArray` models a contiguous numpy array: its shape, its `dtype.char`
(`'B'` uint8, `'f'`/`'d'`/`'e'` the floating kinds, ...), and the bytes of
its underlying buffer in memory order (what `view('uint8')` exposes).
`BufData` distinguishes the two input kinds the codecs branch on with
`isinstance(data, (bytes, bytearray))`. -/

structure NDArray where
  shape : List Nat
  dtypeChar : Char
  data : List Nat
deriving DecidableEq, Repr

inductive BufData where
  | bytes (bs : List Nat)
  | array (a : NDArray)
deriving DecidableEq, Repr

/-- Full `xor_decode`: the byte-buffer running-XOR loop; any other input raises
`NotImplementedError()` (with no message). -/
def xor_decode : BufData → Except PyErr (List Nat)
  | .bytes bs => xor_decodeB bs
  | .array _ => .error (.notImplemented "")

/-- Full `xor_encode`: byte buffers take the `numpy.bitwise_xor` path; typed
arrays XOR each element with its predecessor along the traversal axis and
prepend the first slice.  The embedding instantiates the array path at
rank 1 with `axis = -1` (elements = buffer bytes, dtype `'B'`), where the
source's `data[key0] ^ data[key1]` / `insert` slicing is exactly the
byte-path computation; `data[key]` on a zero-length axis raises
`IndexError`. -/
def xor_encode : BufData → Except PyErr BufData
  | .bytes bs => (xor_encodeB bs).map .bytes
  | .array a =>
    match a.data with
    | [] => .error .indexError
    | x :: xs => .ok (.array { a with data := x :: xorDiff x xs })

/-! Section: BitOrder

`bitorder_decode` maps every byte through the 256-entry lookup table of the
source (the module-level `_bitorder` byte-string literal, transcribed below
entry for entry).  A byte-string input returns `data.translate(table)`, a
new buffer; an array input is rewritten in place through
`numpy.take(table, view, out=view)` and the function returns `None`.
The embedding assumes a contiguous array (the source's `view('uint8')`
succeeds; for non-contiguous slices it raises instead). -/

/-- The 256-entry `_bitorder` lookup table literal from the source. -/
def bitrevTable : List Nat :=
  [0, 128, 64, 192, 32, 160, 96, 224, 16, 144, 80, 208, 48, 176, 112, 240,
   8, 136, 72, 200, 40, 168, 104, 232, 24, 152, 88, 216, 56, 184, 120, 248,
   4, 132, 68, 196, 36, 164, 100, 228, 20, 148, 84, 212, 52, 180, 116, 244,
   12, 140, 76, 204, 44, 172, 108, 236, 28, 156, 92, 220, 60, 188, 124, 252,
   2, 130, 66, 194, 34, 162, 98, 226, 18, 146, 82, 210, 50, 178, 114, 242,
   10, 138, 74, 202, 42, 170, 106, 234, 26, 154, 90, 218, 58, 186, 122, 250,
   6, 134, 70, 198, 38, 166, 102, 230, 22, 150, 86, 214, 54, 182, 118, 246,
   14, 142, 78, 206, 46, 174, 110, 238, 30, 158, 94, 222, 62, 190, 126, 254,
   1, 129, 65, 193, 33, 161, 97, 225, 17, 145, 81, 209, 49, 177, 113, 241,
   9, 137, 73, 201, 41, 169, 105, 233, 25, 153, 89, 217, 57, 185, 121, 249,
   5, 133, 69, 197, 37, 165, 101, 229, 21, 149, 85, 213, 53, 181, 117, 245,
   13, 141, 77, 205, 45, 173, 109, 237, 29, 157, 93, 221, 61, 189, 125, 253,
   3, 131, 67, 195, 35, 163, 99, 227, 19, 147, 83, 211, 51, 179, 115, 243,
   11, 139, 75, 203, 43, 171, 107, 235, 27, 155, 91, 219, 59, 187, 123, 251,
   7, 135, 71, 199, 39, 167, 103, 231, 23, 151, 87, 215, 55, 183, 119, 247,
   15, 143, 79, 207, 47, 175, 111, 239, 31, 159, 95, 223, 63, 191, 127, 255]

/-- One table lookup, `table[b]`. -/
def bitrev (b : Nat) : Nat := bitrevTable.getD b 0

/-- The byte-string path of `bitorder_decode`: `data.translate(table)`. -/
def bitorderBytes (bs : List Nat) : List Nat := bs.map bitrev

/-- Full `bitorder_decode`: first component is the Python return value (`None`
for an array input), second component is the state of the input object
after the call (arrays are mutated in place, byte strings are immutable). -/
def bitorder_decode : BufData → Option (List Nat) × BufData
  | .bytes bs => (some (bitorderBytes bs), .bytes bs)
  | .array a => (none, .array { a with data := a.data.map bitrev })

/-! Section: FloatPred

`floatpred_decode` first validates its input: `axis != -2` raises
`NotImplementedError`, fewer than 3 dimensions raises
`ValueError('invalid data shape')`, a non-floating dtype (char not in
`'dfe'`) raises `ValueError('not a floating point image')`.  Only this
validation prefix is embedded (`Except PyErr Unit`): the transform that
follows reinterprets IEEE float bytes, which is outside the scope of the
claims about this function.  `floatpred_encode` is wrapped by
`@notimplemented` and unconditionally raises
`NotImplementedError('floatpred_encode')`. -/

def floatpred_decode (data : NDArray) (axis : Int) : Except PyErr Unit :=
  if axis ≠ -2 then
    .error (.notImplemented ("axis " ++ toString axis ++ " != -2"))
  else if data.shape.length < 3 then
    .error (.valueError "invalid data shape")
  else if ¬ (data.dtypeChar = 'd' ∨ data.dtypeChar = 'f' ∨ data.dtypeChar = 'e') then
    .error (.valueError "not a floating point image")
  else
    .ok ()

def floatpred_encode (_data : NDArray) (_axis : Int) : Except PyErr Unit :=
  .error (.notImplemented "floatpred_encode")

/-! Section: PackBits

`packbits_decode` scans control bytes: `n = ord(encoded[i:i+1]) + 1`; for
`n > 129` the single following byte (slice `encoded[i:i+1]`, possibly
empty at end of input) is repeated `258 - n` times; for `n < 129` the next
`n` bytes are copied verbatim (a short slice at end of input copies what is
left); `n == 129` contributes nothing.  The loop ends when `ord` hits the
empty slice (the `TypeError` swallowed by the source).  The fuel argument
equals the input length; every iteration consumes at least one input byte,
so the fuel never runs out before the input does. -/

def pbLoop : Nat → List Nat → List Nat
  | 0, _ => []
  | _ + 1, [] => []
  | fuel + 1, c :: rest =>
    if 129 < c + 1 then
      (List.replicate (258 - (c + 1)) (rest.take 1)).flatten ++ pbLoop fuel (rest.drop 1)
    else if c + 1 < 129 then
      rest.take (c + 1) ++ pbLoop fuel (rest.drop (c + 1))
    else
      pbLoop fuel rest

def packbits_decode (encoded : List Nat) : List Nat :=
  pbLoop encoded.length encoded


/-! Section: LZW

`lzw_decode` decompresses a TIFF LZW strip.  The bit width of codes is
9/10/11/12; `switchbits` maps the table sizes 255/511/1023/2047 to
`(bit-width, shr-bits, bit-mask)` triples; `SwState` enumerates exactly
those four states.  `next_code` reads four bytes at `bitcount // 8`
(zero-padded past the end), interprets them big-endian, shifts left by
`bitcount % 8`, masks, and shifts right by the shr-bits.

Before the loop the source checks `len(encoded) < 4` (fatal `ValueError`)
and that the first code is CLEAR = 256 (fatal `ValueError`).  Inside the
loop the code just read is discarded, without being emitted, as soon as
`code == 257` (EOI) or the consumed bit count reaches the total bit count;
in the latter case the function falls through to
`warnings.warn('unexpected end of LZW stream')` and still returns its
accumulated output.  Python list indexing `table[...]` with an
out-of-range code raises `IndexError`, modelled by `lzwGet`.  The entries
256/257 of `newtable` are the reserved CLEAR/EOI slots (the integers `0`
in the source, never valid dictionary strings); they are only reachable
through a CLEAR immediately followed by another CLEAR code, a path no
theorem below exercises.  The fuel of the loop is the total bit count:
every iteration consumes at least 9 bits, so fuel never runs out first. -/

inductive SwState where
  | w9
  | w10
  | w11
  | w12
deriving DecidableEq, Repr

/-- Code bit width of a `switchbits` state. -/
def bitw : SwState → Nat
  | .w9 => 9
  | .w10 => 10
  | .w11 => 11
  | .w12 => 12

/-- Right-shift amount of a `switchbits` state (`32 - bitw`). -/
def shrBits : SwState → Nat
  | .w9 => 23
  | .w10 => 22
  | .w11 => 21
  | .w12 => 20

/-- Bit mask of a `switchbits` state: `bitw` one-bits followed by `shrBits`
zero-bits. -/
def maskBits (s : SwState) : Nat := (2 ^ bitw s - 1) * 2 ^ shrBits s

/-- The keys of the `switchbits` dictionary: table sizes at which the code
width switches. -/
def switchOf (lentable : Nat) : Option SwState :=
  if lentable = 255 then some .w9
  else if lentable = 511 then some .w10
  else if lentable = 1023 then some .w11
  else if lentable = 2047 then some .w12
  else none

/-- Model of `next_code`: the `bitw`-bit integer at bit position `bitcount` of the
big-endian bit stream `enc` (reading past the end pads with zero bytes). -/
def nextCode (enc : List Nat) (bitcount : Nat) (s : SwState) : Nat :=
  let bs := (enc.drop (bitcount / 8)).take 4
  let w := (bs ++ List.replicate (4 - bs.length) 0).foldl (fun acc b => acc * 256 + b) 0
  ((w * 2 ^ (bitcount % 8)) &&& maskBits s) >>> shrBits s

/-- The fresh 258-entry dictionary built at each CLEAR code: the 256
single-byte strings plus the two reserved CLEAR/EOI slots. -/
def newtable : List (List Nat) := (List.range 256).map (fun i => [i]) ++ [[], []]

/-- Python list indexing: out of range raises `IndexError`. -/
def lzwGet (table : List (List Nat)) (i : Nat) : Except PyErr (List Nat) :=
  if h : i < table.length then .ok table[i] else .error .indexError

/-- The `while True` loop of `lzw_decode`.  Returns the list of emitted
strings together with the last code read (the source's `code` variable
after the loop, which decides the end-of-stream warning). -/
def lzwLoop (enc : List Nat) (max : Nat) :
    Nat → SwState → Nat → List (List Nat) → Nat → Nat → List (List Nat) →
    Except PyErr (List (List Nat) × Nat)
  | 0, _, _, _, _, _, _ => .error .outOfFuel
  | fuel + 1, s, bitcount, table, lentable, oldcode, result =>
    let code := nextCode enc bitcount s
    let bc := bitcount + bitw s
    if code = 257 ∨ max ≤ bc then
      .ok (result, code)
    else if code = 256 then
      -- CLEAR: rebuild the dictionary and reset the width to 9 bits
      let code₂ := nextCode enc bc .w9
      let bc₂ := bc + bitw .w9
      if code₂ = 257 then
        .ok (result, code₂)
      else
        match lzwGet newtable code₂ with
        | .error e => .error e
        | .ok entry =>
          -- lentable stays 258, which is not a switchbits key
          lzwLoop enc max fuel .w9 bc₂ newtable 258 code₂ (result ++ [entry])
    else
      match lzwGet table oldcode with
      | .error e => .error e
      | .ok old =>
        let decoded :=
          if code < lentable then table.getD code [] else old ++ old.take 1
        let newcode :=
          if code < lentable then old ++ (table.getD code []).take 1
          else old ++ old.take 1
        let s' := (switchOf (lentable + 1)).getD s
        lzwLoop enc max fuel s' bc (table ++ [newcode]) (lentable + 1) code
          (result ++ [decoded])

/-- Model of `lzw_decode`: the decoded byte string together with the end-of-stream
warning flag (`True` when the loop ended on something other than EOI and
`warnings.warn` fired). -/
def lzw_decode (enc : List Nat) : Except PyErr (List Nat × Bool) :=
  let bitcountMax := enc.length * 8
  if enc.length < 4 then
    .error (.valueError "strip must be at least 4 characters long")
  else if nextCode enc 0 .w9 ≠ 256 then
    .error (.valueError "strip must begin with CLEAR code")
  else
    match lzwLoop enc bitcountMax bitcountMax .w9 0 newtable 258 0 [] with
    | .error e => .error e
    | .ok (result, code) => .ok (result.flatten, decide (code ≠ 257))

/-! Section: PackInts

`packints_decode(data, dtype, numbits, runlen)` branches in this order:

1. `numbits == 1`: `numpy.unpackbits` (MSB-first bits); when
   `runlen % 8 != 0` the bit vector is reshaped to rows of
   `runlen + (8 - runlen % 8)` bits (a `ValueError` when the length does
   not divide) and each row truncated to `runlen` bits; then `astype`.
2. `numbits in (8, 16, 32, 64)`: `numpy.frombuffer(data, dtype)`
   (native little-endian element order; a `ValueError` when the buffer
   length is not a multiple of the item size).  Note 64 is accepted here
   even though it is missing from the check that follows.
3. `numbits not in (1, 2, 4, 8, 16, 32)`: `ValueError('itemsize not
   supported: %i')`.
4. `dtype.kind not in 'biu'`: `ValueError('invalid dtype')`.
5. `itembytes != dtype.itemsize`: `ValueError('dtype.itemsize too small')`.
6. otherwise the bit-extraction loop: big-endian `itembytes`-byte reads
   (zero-padded at the end), shifted by `bitcount % 8`, masked to `numbits`
   bits and shifted down; `runlen == 0` defaults to the whole stream, and
   after each `runlen` values the cursor skips to the next byte boundary.
   When `runlen` defaults to 0 (empty data) the `size` computation divides
   by zero — a Python `ZeroDivisionError`.

`Dtype` carries numpy's `dtype.kind` and `dtype.itemsize`.  The unpack of
step 6 uses `'>' + dtype.char`; because the value is masked to the low
`8*itembytes` bits right after, the signed and unsigned reads agree, so
the embedding reads unsigned.  Storing into the result array casts to the
dtype; for the bool kind `'b'` numpy maps nonzero to 1. -/

structure Dtype where
  kind : Char
  itemsize : Nat
deriving DecidableEq, Repr

/-- Little-endian value of a byte list (native order of `frombuffer`). -/
def leValue (bs : List Nat) : Nat := bs.foldr (fun b acc => acc * 256 + b) 0

/-- Big-endian value of a byte list (the `'>'` struct formats). -/
def beValue (bs : List Nat) : Nat := bs.foldl (fun acc b => acc * 256 + b) 0

/-- Two's-complement reinterpretation of an `nbytes`-byte unsigned value. -/
def toSigned (v : Nat) (nbytes : Nat) : Int :=
  if v < 2 ^ (8 * nbytes - 1) then (v : Int) else (v : Int) - 2 ^ (8 * nbytes)

/-- Model of `numpy.frombuffer(data, dtype)` for integer dtypes. -/
def frombuffer (data : List Nat) (dtype : Dtype) : Except PyErr (List Int) :=
  if data.length % dtype.itemsize ≠ 0 then
    .error (.valueError "buffer size must be a multiple of element size")
  else
    .ok ((List.range (data.length / dtype.itemsize)).map fun i =>
      let bs := (data.drop (i * dtype.itemsize)).take dtype.itemsize
      if dtype.kind = 'i' then toSigned (leValue bs) dtype.itemsize
      else (leValue bs : Int))

/-- Model of `numpy.unpackbits`: each byte into 8 bits, most significant first. -/
def unpackbitsMSB (data : List Nat) : List Nat :=
  (data.map fun b => (List.range 8).map fun k => (b >>> (7 - k)) &&& 1).flatten

/-- The `for i in range(size)` extraction loop of `packints_decode`,
recursing on the number of remaining values. -/
def piRun (data : List Nat) (dtype : Dtype) (itembytes numbits skipbits shrbits bitmask runlen : Nat) :
    Nat → Nat → Nat → List Int
  | 0, _, _ => []
  | rem + 1, i, bitcount =>
    let s := (data.drop (bitcount / 8)).take itembytes
    let padded := s ++ List.replicate (itembytes - s.length) 0
    let code := (beValue padded * 2 ^ (bitcount % 8)) &&& bitmask
    let v := code >>> shrbits
    let stored : Int := if dtype.kind = 'b' then (if v = 0 then 0 else 1) else (v : Int)
    let bc := bitcount + numbits
    let bc := if (i + 1) % runlen = 0 then bc + skipbits else bc
    stored :: piRun data dtype itembytes numbits skipbits shrbits bitmask runlen rem (i + 1) bc

def packints_decode (data : List Nat) (dtype : Dtype) (numbits : Nat) (runlen : Nat) :
    Except PyErr (List Int) :=
  if numbits = 1 then
    let bits := unpackbitsMSB data
    if runlen % 8 ≠ 0 then
      let width := runlen + (8 - runlen % 8)
      if bits.length % width ≠ 0 then .error (.valueError "cannot reshape array")
      else
        .ok ((((List.range (bits.length / width)).map fun r =>
          ((bits.drop (r * width)).take width).take runlen).flatten).map Int.ofNat)
    else
      .ok (bits.map Int.ofNat)
  else if numbits = 8 ∨ numbits = 16 ∨ numbits = 32 ∨ numbits = 64 then
    frombuffer data dtype
  else if ¬ (numbits = 1 ∨ numbits = 2 ∨ numbits = 4 ∨ numbits = 8 ∨
             numbits = 16 ∨ numbits = 32) then
    .error (.valueError ("itemsize not supported: " ++ toString numbits))
  else if ¬ (dtype.kind = 'b' ∨ dtype.kind = 'i' ∨ dtype.kind = 'u') then
    .error (.valueError "invalid dtype")
  else
    let itembytes := if numbits ≤ 8 then 1 else if numbits ≤ 16 then 2
                     else if numbits ≤ 32 then 4 else 8
    if itembytes ≠ dtype.itemsize then .error (.valueError "dtype.itemsize too small")
    else
      let runlen' := if runlen = 0 then (8 * data.length) / numbits else runlen
      let skipbits0 := runlen' * numbits % 8
      let skipbits := if skipbits0 ≠ 0 then 8 - skipbits0 else 0
      let shrbits := itembytes * 8 - numbits
      let bitmask := (2 ^ numbits - 1) * 2 ^ shrbits
      if runlen' * numbits + skipbits = 0 then .error .zeroDivision
      else
        let size := runlen' * (data.length * 8 / (runlen' * numbits + skipbits))
        .ok (piRun data dtype itembytes numbits skipbits shrbits bitmask runlen' size 0 0)

/-! Section: helper lemmas -/

theorem cumsumB_deltaDiff (p : ZMod 256) (xs : List (ZMod 256)) :
    cumsumB p (deltaDiff p xs) = xs := by
  induction xs generalizing p with
  | nil => rfl
  | cons x xs ih =>
    simp only [deltaDiff, cumsumB]
    have h : p + (x - p) = x := by ring
    rw [h, ih]

theorem xorScan_xorDiff (p : Nat) (xs : List Nat) :
    xorScan p (xorDiff p xs) = xs := by
  induction xs generalizing p with
  | nil => rfl
  | cons x xs ih =>
    simp only [xorDiff, xorScan]
    have h : x ^^^ p ^^^ p = x := Nat.xor_cancel_right p x
    rw [h, ih]

theorem pbLoop_congr :
    ∀ (fuel fuel' : Nat) (l : List Nat), l.length ≤ fuel → l.length ≤ fuel' →
      pbLoop fuel l = pbLoop fuel' l := by
  intro fuel
  induction fuel with
  | zero =>
    intro fuel' l h _
    have : l = [] := List.eq_nil_of_length_eq_zero (Nat.le_zero.mp h)
    subst this
    cases fuel' <;> rfl
  | succ fuel ih =>
    intro fuel' l h h'
    cases l with
    | nil => cases fuel' <;> rfl
    | cons c rest =>
      cases fuel' with
      | zero => simp at h'
      | succ fuel' =>
        simp only [List.length_cons, Nat.succ_le_succ_iff] at h h'
        simp only [pbLoop]
        split
        · rw [ih fuel' (rest.drop 1) (le_trans (by simp [List.length_drop]) h)
            (le_trans (by simp [List.length_drop]) h')]
        · split
          · rw [ih fuel' (rest.drop (c + 1)) (le_trans (by simp [List.length_drop]) h)
              (le_trans (by simp [List.length_drop]) h')]
          · exact ih fuel' rest h h'

theorem pbLoop_eq_packbits (fuel : Nat) (l : List Nat) (h : l.length ≤ fuel) :
    pbLoop fuel l = packbits_decode l :=
  pbLoop_congr fuel l.length l h le_rfl

/-- One-step unfolding of `packbits_decode` on a nonempty input. -/
theorem packbits_decode_cons (c : Nat) (rest : List Nat) :
    packbits_decode (c :: rest) =
      if 129 < c + 1 then
        (List.replicate (258 - (c + 1)) (rest.take 1)).flatten ++
          packbits_decode (rest.drop 1)
      else if c + 1 < 129 then
        rest.take (c + 1) ++ packbits_decode (rest.drop (c + 1))
      else
        packbits_decode rest := by
  show pbLoop (rest.length + 1) (c :: rest) = _
  simp only [pbLoop]
  split
  · rw [pbLoop_eq_packbits rest.length (rest.drop 1) (by simp [List.length_drop])]
  · split
    · rw [pbLoop_eq_packbits rest.length (rest.drop (c + 1)) (by simp [List.length_drop])]
    · rw [pbLoop_eq_packbits rest.length rest le_rfl]

theorem flatten_replicate_singleton (n : Nat) (x : Nat) :
    (List.replicate n [x]).flatten = List.replicate n x := by
  induction n with
  | zero => rfl
  | succ n ih => simp [List.replicate_succ, ih]

/-! Section: claims C1 and C4, Delta and XOR on byte buffers -/

/-- C1 (amended): for every nonempty byte buffer, `delta_decode` inverts
`delta_encode` and `xor_decode` inverts `xor_encode` under mod-256
wraparound; on the empty buffer the encoders raise `IndexError` instead
(see the counterexample below). -/
theorem delta_xor_byte_roundtrip :
    (∀ l : List (ZMod 256), l ≠ [] →
      ∃ e, delta_encodeB l = .ok e ∧ delta_decodeB e = l) ∧
    (∀ l : List Nat, l ≠ [] →
      ∃ e, xor_encodeB l = .ok e ∧ xor_decodeB e = .ok l) := by
  constructor
  · intro l hl
    match l with
    | [] => exact absurd rfl hl
    | x :: xs =>
      refine ⟨x :: deltaDiff x xs, rfl, ?_⟩
      show cumsumB 0 (x :: deltaDiff x xs) = x :: xs
      simp only [cumsumB, zero_add]
      rw [cumsumB_deltaDiff]
  · intro l hl
    match l with
    | [] => exact absurd rfl hl
    | x :: xs =>
      refine ⟨x :: xorDiff x xs, rfl, ?_⟩
      show Except.ok (x :: xorScan x (xorDiff x xs)) = _
      rw [xorScan_xorDiff]

/-- C1, witness: the round trip at the concrete buffers `[3, 250]` and
`[5, 9]`. -/
theorem delta_xor_byte_roundtrip_witness :
    (∃ e, delta_encodeB ([3, 250] : List (ZMod 256)) = .ok e ∧
       delta_decodeB e = [3, 250]) ∧
    (∃ e, xor_encodeB [5, 9] = .ok e ∧ xor_decodeB e = .ok [5, 9]) :=
  ⟨delta_xor_byte_roundtrip.1 [3, 250] (by decide),
   delta_xor_byte_roundtrip.2 [5, 9] (by decide)⟩

/-- C1, counterexample: on the empty byte buffer the composite
`delta_decode ∘ delta_encode` does not return the buffer — `delta_encode`
raises `IndexError` (`data[0]` on an empty array), so the round-trip claim
fails for `b = b''`. -/
theorem delta_roundtrip_empty_counterexample :
    ¬ (delta_encodeB ([] : List (ZMod 256))).map delta_decodeB = .ok [] := by
  decide

/-- C4 (amended): a zero-length byte buffer is not a no-op for the
encoders: `delta_encode` and `xor_encode` both raise `IndexError`
(evaluating `data[0]` of an empty array) instead of returning the input
unchanged. -/
theorem encode_empty_raises :
    delta_encodeB ([] : List (ZMod 256)) = .error .indexError ∧
    xor_encodeB [] = .error .indexError :=
  ⟨rfl, rfl⟩

/-- C4, counterexample: the empty byte buffer refutes the claim that a
zero-length input is returned unchanged. -/
theorem encode_empty_counterexample :
    delta_encodeB ([] : List (ZMod 256)) ≠ .ok [] ∧ xor_encodeB [] ≠ .ok [] := by
  decide

/-! Section: claim C2, PackBits -/

/-- C2: `packbits_decode` computes `count = control + 1` per control byte
and concatenates, in order: the next `count` input bytes verbatim when
`count < 129`; nothing when `count = 129`; `258 - count` copies of the
single following byte when `count > 129`; and in particular
`packbits_decode(b'\x02123') = b'123'` and
`packbits_decode(b'\x80\x80') = b''`. -/
theorem packbits_decode_spec :
    (∀ c rest, c + 1 < 129 →
      packbits_decode (c :: rest) =
        rest.take (c + 1) ++ packbits_decode (rest.drop (c + 1))) ∧
    (∀ c rest, c + 1 = 129 →
      packbits_decode (c :: rest) = packbits_decode rest) ∧
    (∀ c x rest, 129 < c + 1 →
      packbits_decode (c :: x :: rest) =
        List.replicate (258 - (c + 1)) x ++ packbits_decode rest) ∧
    packbits_decode [2, 49, 50, 51] = [49, 50, 51] ∧
    packbits_decode [128, 128] = [] := by
  refine ⟨?_, ?_, ?_, by decide, by decide⟩
  · intro c rest h
    rw [packbits_decode_cons, if_neg (by omega), if_pos h]
  · intro c rest h
    rw [packbits_decode_cons, if_neg (by omega), if_neg (by omega)]
  · intro c x rest h
    rw [packbits_decode_cons, if_pos h]
    simp only [List.take, List.drop]
    rw [flatten_replicate_singleton]

/-- C2, witness: each branch of the control-byte case split at a concrete
input. -/
theorem packbits_decode_spec_witness :
    packbits_decode (1 :: [7, 8]) =
      [7, 8].take (1 + 1) ++ packbits_decode ([7, 8].drop (1 + 1)) ∧
    packbits_decode (128 :: [3, 9]) = packbits_decode [3, 9] ∧
    packbits_decode (255 :: 5 :: []) =
      List.replicate (258 - (255 + 1)) 5 ++ packbits_decode [] :=
  ⟨packbits_decode_spec.1 1 [7, 8] (by decide),
   packbits_decode_spec.2.1 128 [3, 9] (by decide),
   packbits_decode_spec.2.2.1 255 5 [] (by decide)⟩

/-! Section: claim C3 and C10, LZW error handling and final-code drop -/

/-- C3: `lzw_decode` raises `ValueError` when the input is shorter than 4
bytes, and when the first 9-bit code is not CLEAR (256); but exhausting
the bit stream before an EOI only breaks the loop with the accumulated
best-effort output and sets the non-fatal warning flag — witnessed
generally at the loop level (the break as soon as the consumed bit count
reaches the total), and end to end on the EOI-less stream
`b'\x80\x00\x00\x00'`. -/
theorem lzw_error_handling :
    (∀ enc : List Nat, enc.length < 4 →
      lzw_decode enc = .error (.valueError "strip must be at least 4 characters long")) ∧
    (∀ enc : List Nat, ¬ enc.length < 4 → nextCode enc 0 .w9 ≠ 256 →
      lzw_decode enc = .error (.valueError "strip must begin with CLEAR code")) ∧
    (∀ (fuel mx : Nat) (enc : List Nat) (s : SwState)
        (bitcount : Nat) (table : List (List Nat)) (lentable oldcode : Nat)
        (result : List (List Nat)),
      nextCode enc bitcount s ≠ 257 → mx ≤ bitcount + bitw s →
      lzwLoop enc mx (fuel + 1) s bitcount table lentable oldcode result =
        .ok (result, nextCode enc bitcount s)) ∧
    lzw_decode [128, 0, 0, 0] = .ok ([0, 0], true) := by
  refine ⟨?_, ?_, ?_, by decide⟩
  · intro enc h
    simp only [lzw_decode]
    rw [if_pos h]
  · intro enc h h'
    simp only [lzw_decode]
    rw [if_neg h, if_pos h']
  · intro fuel mx enc s bitcount table lentable oldcode result _ hbits
    simp only [lzwLoop]
    rw [if_pos (Or.inr hbits)]

/-- C3, witness: the three error-handling clauses at concrete inputs. -/
theorem lzw_error_handling_witness :
    lzw_decode [7] = .error (.valueError "strip must be at least 4 characters long") ∧
    lzw_decode [0, 0, 0, 0] = .error (.valueError "strip must begin with CLEAR code") ∧
    lzwLoop [128, 0, 0, 0] 32 1 .w9 30 [] 0 0 [[7]] =
      .ok ([[7]], nextCode [128, 0, 0, 0] 30 .w9) :=
  ⟨lzw_error_handling.1 [7] (by decide),
   lzw_error_handling.2.1 [0, 0, 0, 0] (by decide) (by decide),
   lzw_error_handling.2.2.1 0 32 [128, 0, 0, 0] .w9 30 [] 0 0 [[7]]
     (by decide) (by decide)⟩

/-- C10: a non-EOI code whose final bit coincides exactly with the end of
the input bit stream is read but never emitted — the loop returns the
accumulated output unchanged, paired with that code.  End to end: a
9-byte strip holding the codes CLEAR, then seven fully present literal
codes 65, decodes to only six copies of byte 65 (with the end-of-stream
warning), the seventh being read and dropped at the break. -/
theorem lzw_final_code_unemitted :
    (∀ (fuel mx : Nat) (enc : List Nat) (s : SwState)
        (bitcount : Nat) (table : List (List Nat)) (lentable oldcode : Nat)
        (result : List (List Nat)),
      nextCode enc bitcount s ≠ 257 → bitcount + bitw s = mx →
      lzwLoop enc mx (fuel + 1) s bitcount table lentable oldcode result =
        .ok (result, nextCode enc bitcount s)) ∧
    lzw_decode [128, 16, 72, 36, 18, 9, 4, 130, 65] =
      .ok (List.replicate 6 65, true) := by
  refine ⟨?_, by decide⟩
  intro fuel mx enc s bitcount table lentable oldcode result _ hbits
  simp only [lzwLoop]
  rw [if_pos (Or.inr (le_of_eq hbits.symm))]

/-- C10, witness: the loop-level clause at a concrete state whose next
code ends exactly at the last bit of the input. -/
theorem lzw_final_code_unemitted_witness :
    lzwLoop [128, 0, 0, 0] 32 1 .w9 23 [[9]] 1 0 [[4]] =
      .ok ([[4]], nextCode [128, 0, 0, 0] 23 .w9) :=
  lzw_final_code_unemitted.1 0 32 [128, 0, 0, 0] .w9 23 [[9]] 1 0 [[4]]
    (by decide) (by decide)

/-! Section: claim C5, PackInts numbits validation -/

/-- C5 (amended): `packints_decode` accepts `numbits` only from
`{1, 2, 4, 8, 16, 32, 64}` — 64 is accepted by the `frombuffer` fast path
that precedes the membership check — and raises
`ValueError('itemsize not supported')` for every other value, in
particular for `numbits = 3`. -/
theorem packints_numbits_validation :
    (∀ (data : List Nat) (dtype : Dtype) (runlen numbits : Nat),
      ¬ (numbits = 1 ∨ numbits = 2 ∨ numbits = 4 ∨ numbits = 8 ∨
         numbits = 16 ∨ numbits = 32 ∨ numbits = 64) →
      packints_decode data dtype numbits runlen =
        .error (.valueError ("itemsize not supported: " ++ toString numbits))) ∧
    (∀ (data : List Nat) (dtype : Dtype) (runlen : Nat),
      packints_decode data dtype 3 runlen =
        .error (.valueError ("itemsize not supported: " ++ toString 3))) := by
  have key : ∀ (data : List Nat) (dtype : Dtype) (runlen numbits : Nat),
      ¬ (numbits = 1 ∨ numbits = 2 ∨ numbits = 4 ∨ numbits = 8 ∨
         numbits = 16 ∨ numbits = 32 ∨ numbits = 64) →
      packints_decode data dtype numbits runlen =
        .error (.valueError ("itemsize not supported: " ++ toString numbits)) := by
    intro data dtype runlen numbits h
    push_neg at h
    obtain ⟨h1, h2, h4, h8, h16, h32, h64⟩ := h
    simp only [packints_decode]
    rw [if_neg h1, if_neg (by simp [h8, h16, h32, h64]),
      if_pos (by simp [h1, h2, h4, h8, h16, h32])]
  exact ⟨key, fun data dtype runlen => key data dtype runlen 3 (by decide)⟩

/-- C5, witness: rejection at the concrete call
`packints_decode(b'\x01\x02', uint8, 5)`. -/
theorem packints_numbits_validation_witness :
    packints_decode [1, 2] ⟨'u', 1⟩ 5 0 =
      .error (.valueError ("itemsize not supported: " ++ toString 5)) :=
  packints_numbits_validation.1 [1, 2] ⟨'u', 1⟩ 0 5 (by decide)

/-- C5, counterexample: `numbits = 64` lies outside `{1, 2, 4, 8, 16, 32}`
yet decodes successfully — 8 bytes of a uint64 buffer decode to one
element, refuting the claim that every value outside that set raises. -/
theorem packints_numbits64_counterexample :
    packints_decode [7, 0, 0, 0, 0, 0, 0, 0] ⟨'u', 8⟩ 64 0 = .ok [7] := by
  decide

/-! Section: claims C6 and C9, BitOrder -/

/-- C6: the 256-entry bit-reversal table composed with itself is the
identity on every byte value, hence the byte-string path of
`bitorder_decode` is self-inverse on every byte string. -/
theorem bitorder_self_inverse :
    (∀ b : Nat, b < 256 → bitrev (bitrev b) = b) ∧
    (∀ bs : List Nat, (∀ b ∈ bs, b < 256) →
      bitorderBytes (bitorderBytes bs) = bs) ∧
    (∀ bs : List Nat, (bitorder_decode (.bytes bs)).1 = some (bitorderBytes bs)) := by
  have tbl : ∀ b : Nat, b < 256 → bitrev (bitrev b) = b := by decide
  refine ⟨tbl, ?_, fun bs => rfl⟩
  intro bs h
  induction bs with
  | nil => rfl
  | cons b bs ih =>
    simp only [bitorderBytes, List.map_cons] at *
    rw [tbl b (h b (by simp)), ih (fun x hx => h x (by simp [hx]))]

/-- C6, witness: the double reversal at the concrete byte 1 and the
concrete byte string `b'\x01\x64'`. -/
theorem bitorder_self_inverse_witness :
    bitrev (bitrev 1) = 1 ∧ bitorderBytes (bitorderBytes [1, 100]) = [1, 100] :=
  ⟨bitorder_self_inverse.1 1 (by decide),
   bitorder_self_inverse.2.1 [1, 100] (by decide)⟩

/-- C9: on a numpy-array input `bitorder_decode` returns `None` and
rewrites the array's buffer in place through the lookup table; only a
byte-string input yields a returned buffer (the original bytes object
staying untouched). -/
theorem bitorder_array_returns_none :
    (∀ a : NDArray, bitorder_decode (.array a) =
      (none, .array { a with data := a.data.map bitrev })) ∧
    (∀ bs : List Nat, bitorder_decode (.bytes bs) =
      (some (bitorderBytes bs), .bytes bs)) :=
  ⟨fun _ => rfl, fun _ => rfl⟩

/-! Section: claims C7 and C8, unsupported operations -/

/-- C7: `xor_decode` raises `NotImplementedError` on every typed-array
input, and succeeds only on byte-buffer input, even though `xor_encode`
does handle a typed array (shown on a concrete rank-1 uint8 array). -/
theorem xor_decode_bytes_only :
    (∀ a : NDArray, xor_decode (.array a) = .error (.notImplemented "")) ∧
    (∀ (d : BufData) (r : List Nat), xor_decode d = .ok r → ∃ bs, d = .bytes bs) ∧
    xor_encode (.array ⟨[3], 'B', [1, 2, 3]⟩) = .ok (.array ⟨[3], 'B', [1, 3, 1]⟩) := by
  refine ⟨fun _ => rfl, ?_, rfl⟩
  intro d r h
  cases d with
  | bytes bs => exact ⟨bs, rfl⟩
  | array a => exact absurd h (by simp [xor_decode])

/-- C7, witness: a successful decode really does come from a byte-buffer
input. -/
theorem xor_decode_bytes_only_witness :
    ∃ bs, BufData.bytes [5] = BufData.bytes bs :=
  xor_decode_bytes_only.2.1 (.bytes [5]) [5] rfl

/-- C8: `floatpred_decode` validates before transforming — any axis other
than -2 raises `NotImplementedError`, fewer than 3 dimensions raises the
shape `ValueError`, a non-floating dtype raises the type `ValueError` —
and `floatpred_encode` unconditionally raises `NotImplementedError`. -/
theorem floatpred_validation :
    ∀ (a : NDArray) (axis : Int),
      (axis ≠ -2 → floatpred_decode a axis =
        .error (.notImplemented ("axis " ++ toString axis ++ " != -2"))) ∧
      (axis = -2 → a.shape.length < 3 →
        floatpred_decode a axis = .error (.valueError "invalid data shape")) ∧
      (axis = -2 → ¬ a.shape.length < 3 →
        ¬ (a.dtypeChar = 'd' ∨ a.dtypeChar = 'f' ∨ a.dtypeChar = 'e') →
        floatpred_decode a axis = .error (.valueError "not a floating point image")) ∧
      floatpred_encode a axis = .error (.notImplemented "floatpred_encode") := by
  intro a axis
  refine ⟨?_, ?_, ?_, rfl⟩
  · intro h
    simp only [floatpred_decode]
    rw [if_pos h]
  · intro h h'
    simp only [floatpred_decode]
    rw [if_neg (by simp [h]), if_pos h']
  · intro h h' h''
    simp only [floatpred_decode]
    rw [if_neg (by simp [h]), if_neg h', if_pos h'']

/-- C8, witness: each validation failure and the encoder stub at a
concrete array. -/
theorem floatpred_validation_witness :
    floatpred_decode ⟨[2, 2, 2], 'f', []⟩ 0 =
      .error (.notImplemented ("axis " ++ toString (0 : Int) ++ " != -2")) ∧
    floatpred_decode ⟨[4], 'f', []⟩ (-2) =
      .error (.valueError "invalid data shape") ∧
    floatpred_decode ⟨[2, 2, 2], 'B', []⟩ (-2) =
      .error (.valueError "not a floating point image") ∧
    floatpred_encode ⟨[2, 2, 2], 'f', []⟩ (-2) =
      .error (.notImplemented "floatpred_encode") :=
  ⟨(floatpred_validation ⟨[2, 2, 2], 'f', []⟩ 0).1 (by decide),
   (floatpred_validation ⟨[4], 'f', []⟩ (-2)).2.1 rfl (by decide),
   (floatpred_validation ⟨[2, 2, 2], 'B', []⟩ (-2)).2.2.1 rfl (by decide) (by decide),
   (floatpred_validation ⟨[2, 2, 2], 'f', []⟩ (-2)).2.2.2⟩

end Imagecodecs
